import Mathlib

/-!
Verification of the asynchronous chat request subsystem.

This file gives a shallow embedding of the request-coordination subsystem of
the chat application: the `ChatService` class (pending-request lifecycle,
conversation transcript, the model/tool loop of `processAsync`), the HTTP
endpoints of `app.ts` (`POST /api/chat`, `GET /api/messages/:requestId`), the
WebSocket completion callbacks, and `MCPManager.executeSkill`.

Modelling conventions:
* JavaScript `Map`s become association lists `List (String × α)` with
  `lookupKey` / `upsert`.
* Wall-clock timestamps are abstract `Nat` values passed in by the caller;
  generated identifiers (`generateRequestId`, fresh conversation ids) are
  likewise parameters, since the source derives them from `Date.now()` and
  `Math.random()`.
* JSON values that the code only passes through (`result.output`, tool-call
  `arguments`) are kept as opaque strings; `JSON.stringify` of the payload
  `\x7b error: e \x7d` is modelled by `jsonError`.
* The OpenAI client is a function `Nat → Option AssistantMessage` giving the
  response to the n-th `chat.completions.create` call of one `processAsync`
  run; `none` models an empty `choices` array (the code then throws
  `"No response from OpenAI"`).
* The injected `mcpManager.executeSkill` is a function
  `String → String → SkillExecutionResult`.
* The `while (assistantMessage.tool_calls ...)` loop of `processAsync` has no
  iteration bound in the source, so it is embedded fuel-style: `toolLoop`
  returns `none` when the given number of rounds was exhausted while the model
  was still requesting tools, i.e. the run is still going.
* The database-backed branch (`if (db)`) is modelled for the pending-requests
  table (the part the claims touch): `ServiceState.db` is `none` when
  `DATABASE_URL` is unset, and `some rows` otherwise; a thrown insert is the
  boolean parameter `dbInsertOk = false`.
-/

namespace ChatApp

/-! Association-list maps (JavaScript `Map` semantics). -/

/-- JavaScript `Map.get`: first binding of the key, if any. -/
def lookupKey {α : Type} (m : List (String × α)) (k : String) : Option α :=
  match m with
  | [] => none
  | (k', v) :: rest => if k' = k then some v else lookupKey rest k

/-- JavaScript `Map.set`: replace the binding in place, or append a new one. -/
def upsert {α : Type} (m : List (String × α)) (k : String) (v : α) :
    List (String × α) :=
  match m with
  | [] => [(k, v)]
  | (k', v') :: rest =>
    if k' = k then (k, v) :: rest else (k', v') :: upsert rest k v

theorem lookupKey_upsert_self {α : Type} (m : List (String × α)) (k : String)
    (v : α) : lookupKey (upsert m k v) k = some v := by
  induction m with
  | nil => simp [upsert, lookupKey]
  | cons kv rest ih =>
    by_cases h : kv.fst = k
    · simp [upsert, lookupKey, h]
    · simp [upsert, lookupKey, h, ih]

theorem lookupKey_upsert_ne {α : Type} (m : List (String × α)) (k k' : String)
    (v : α) (h : k' ≠ k) : lookupKey (upsert m k v) k' = lookupKey m k' := by
  induction m with
  | nil => simp [upsert, lookupKey, Ne.symm h]
  | cons kv rest ih =>
    by_cases hk : kv.fst = k
    · subst hk
      simp [upsert, lookupKey, h, Ne.symm h]
    · simp only [upsert, hk, if_false, lookupKey]
      by_cases hk' : kv.fst = k'
      · simp [hk']
      · simp [hk', ih]

/-! Data model (`src/types`). -/

/-- Transcript-entry roles (`ChatCompletionMessageParam` roles). -/
inductive Role : Type
  | system
  | user
  | assistant
  | tool
deriving DecidableEq, Repr

/-- One entry of `assistantMessage.tool_calls` (the `function` kind; the code
skips any other kind and the OpenAI API produces only this one). The parsed
`arguments` JSON is kept as its source string. -/
structure ToolCall : Type where
  id : String
  name : String
  arguments : String
deriving DecidableEq, Repr

/-- One transcript entry as pushed onto `history` in `processAsync`.
An assistant message with `content: null` is stored with content `""`. -/
structure Msg : Type where
  role : Role
  content : String
  tool_calls : List ToolCall := []
  tool_call_id : Option String := none
deriving DecidableEq, Repr

/-- The message object returned by one OpenAI call:
`response.choices[0].message`. -/
structure AssistantMessage : Type where
  content : Option String
  tool_calls : List ToolCall := []
deriving DecidableEq, Repr

/-- Mirror of `SkillExecutionResult` in `src/types`: `output` is an opaque JSON string. -/
structure SkillExecutionResult : Type where
  success : Bool
  output : Option String := none
  error : Option String := none
deriving DecidableEq, Repr

/-- The `skillExecution` metadata recorded by the tool loop
(the `executedAt` timestamp is not modelled). -/
structure SkillExecution : Type where
  skillName : String
  input : String
  output : String
deriving DecidableEq, Repr

/-- Mirror of `ChatMessage` in `src/types` (timestamp not modelled). -/
structure ChatMessage : Type where
  id : String
  role : Role
  content : String
  skillExecution : Option SkillExecution := none
deriving DecidableEq, Repr

/-- Status values of `PendingRequest.status`. -/
inductive RequestStatus : Type
  | pending
  | processing
  | completed
  | error
deriving DecidableEq, Repr

/-- Mirror of `PendingRequest` in `src/types`. -/
structure PendingRequest : Type where
  id : String
  status : RequestStatus
  conversationId : String
  userMessage : String
  createdAt : Nat
  response : Option ChatMessage := none
  error : Option String := none
deriving DecidableEq, Repr

/-- The mutable state of one `ChatService` instance:
`inMemoryPendingRequests`, `inMemoryConversations`, and (when
`DATABASE_URL` is set) the `pending_requests` table rows. -/
structure ServiceState : Type where
  inMemoryPendingRequests : List (String × PendingRequest) := []
  inMemoryConversations : List (String × List Msg) := []
  db : Option (List (String × PendingRequest)) := none
deriving DecidableEq, Repr

/-! Request-registry operations of `ChatService`. -/

/-- Model of `db.update(pendingRequests).set(f).where(eq(id, rid))`:
apply `f` to the row with the given id, if present. -/
def updateRows (rows : List (String × PendingRequest)) (rid : String)
    (f : PendingRequest → PendingRequest) : List (String × PendingRequest) :=
  rows.map (fun kv => if kv.fst = rid then (kv.fst, f kv.snd) else kv)

/-- The in-memory half shared by the three transitions:
`const request = map.get(id); if (request) \x7b mutate request \x7d` — the
entry is overwritten when present and nothing happens otherwise. -/
def setInMemory (m : List (String × PendingRequest)) (rid : String)
    (f : PendingRequest → PendingRequest) : List (String × PendingRequest) :=
  match lookupKey m rid with
  | none => m
  | some r => upsert m rid (f r)

/-- Model of `ChatService.updateRequestStatus`: unconditionally sets `status`
on the database row (if any) and on the in-memory entry (if any); there is no
check of the current status. -/
def updateRequestStatus (s : ServiceState) (requestId : String)
    (status : RequestStatus) : ServiceState :=
  { s with
    db := s.db.map (fun rows => updateRows rows requestId
      (fun r => { r with status := status })),
    inMemoryPendingRequests := setInMemory s.inMemoryPendingRequests requestId
      (fun r => { r with status := status }) }

/-- Model of `ChatService.completeRequest`: unconditionally sets
`status := completed` and attaches the response message (the database row also
gets a `responseId`, not modelled); there is no check of the current status. -/
def completeRequest (s : ServiceState) (requestId : String)
    (response : ChatMessage) : ServiceState :=
  { s with
    db := s.db.map (fun rows => updateRows rows requestId
      (fun r => { r with status := RequestStatus.completed })),
    inMemoryPendingRequests := setInMemory s.inMemoryPendingRequests requestId
      (fun r => { r with status := RequestStatus.completed, response := some response }) }

/-- Model of `ChatService.failRequest`: unconditionally sets `status := error`
and attaches the error text; there is no check of the current status. -/
def failRequest (s : ServiceState) (requestId : String) (err : String) :
    ServiceState :=
  { s with
    db := s.db.map (fun rows => updateRows rows requestId
      (fun r => { r with status := RequestStatus.error, error := some err })),
    inMemoryPendingRequests := setInMemory s.inMemoryPendingRequests requestId
      (fun r => { r with status := RequestStatus.error, error := some err }) }

/-- Model of `ChatService.processMessage`, synchronous part: create the
`PendingRequest` in state `pending`, store it (database when available and the
insert succeeds, in-memory otherwise), and return the request id. The actual
processing (`processAsync`) is scheduled, not awaited. -/
def processMessage (s : ServiceState) (requestId conversationId message : String)
    (now : Nat) (dbInsertOk : Bool) : String × ServiceState :=
  let pending : PendingRequest :=
    { id := requestId, status := RequestStatus.pending,
      conversationId := conversationId, userMessage := message,
      createdAt := now }
  let s' : ServiceState :=
    match s.db with
    | some rows =>
      if dbInsertOk then
        { s with db := some (upsert rows requestId
            ({ pending with response := none, error := none })) }
      else
        { s with inMemoryPendingRequests :=
            upsert s.inMemoryPendingRequests requestId pending }
    | none =>
      { s with inMemoryPendingRequests :=
          upsert s.inMemoryPendingRequests requestId pending }
  (requestId, s')

/-- Model of `ChatService.getRequestStatus` (the synchronous lookup used by the polling
endpoint): consults only the in-memory map and returns `undefined`
otherwise — the source comments that a synchronous database query is not
possible, so it "returns undefined and lets the polling retry". -/
def getRequestStatus (s : ServiceState) (requestId : String) :
    Option PendingRequest :=
  lookupKey s.inMemoryPendingRequests requestId

/-! HTTP endpoints (`src/server/app.ts`). -/

/-- JSON body of `GET /api/messages/:requestId`. -/
structure PollResponse : Type where
  success : Bool
  status : String
  message : Option ChatMessage := none
  error : Option String := none
deriving DecidableEq, Repr

/-- The status strings the polling endpoint can return. -/
def statusString : RequestStatus → String
  | RequestStatus.pending => "pending"
  | RequestStatus.processing => "processing"
  | RequestStatus.completed => "completed"
  | RequestStatus.error => "error"

/-- The `GET /api/messages/:requestId` handler: a pure read of the service
state (it calls only the synchronous `getRequestStatus`). -/
def getMessagesEndpoint (s : ServiceState) (requestId : String) : PollResponse :=
  match getRequestStatus s requestId with
  | none =>
    { success := false, status := "not_found", error := some "Request not found" }
  | some r =>
    { success := true, status := statusString r.status,
      message := r.response, error := r.error }

/-- JSON body of `POST /api/chat`. -/
structure ChatSubmitResponse : Type where
  success : Bool
  requestId : Option String := none
  conversationId : Option String := none
  error : Option String := none
deriving DecidableEq, Repr

/-- The validation test `!message?.trim()` of the chat endpoint: true exactly
when the trimmed message is empty, i.e. every character is whitespace. -/
def isBlank (s : String) : Bool := s.data.all Char.isWhitespace

/-- The `POST /api/chat` handler. `!message?.trim()` rejects a message whose
trimmed form is empty; `conversationId || fresh` treats the empty string as
absent. `freshConvId` stands for the generated `conv_${Date.now()}` and
`freshReqId` for `generateRequestId()`. -/
def postChatEndpoint (s : ServiceState) (message : String)
    (conversationId : Option String) (freshConvId freshReqId : String)
    (now : Nat) (dbInsertOk : Bool) : ChatSubmitResponse × ServiceState :=
  if isBlank message then
    ({ success := false, error := some "Message is required" }, s)
  else
    let convId : String :=
      match conversationId with
      | none => freshConvId
      | some c => if c = "" then freshConvId else c
    let rs := processMessage s freshReqId convId message now dbInsertOk
    ({ success := true, requestId := some rs.fst,
       conversationId := some convId }, rs.snd)

/-! The model/tool loop (`ChatService.processAsync`). -/

/-- The string `JSON.stringify(\x7b error: e \x7d)`. -/
def jsonError (e : String) : String :=
  "\x7b\"error\":\"" ++ e ++ "\"\x7d"

/-- The payload `JSON.stringify(result.success ? result.output : \x7b error: result.error \x7d)`:
the payload recorded both as the tool-result entry's content and as the
`skillExecution.output` metadata. -/
def toolResultPayload (r : SkillExecutionResult) : String :=
  if r.success then
    match r.output with
    | some o => o
    | none => "null"
  else jsonError (match r.error with | some e => e | none => "null")

/-- Effect of `history.push(assistantMessage)`: an assistant message becomes a
transcript entry (null content stored as `""`). -/
def Msg.ofAssistant (m : AssistantMessage) : Msg :=
  { role := Role.assistant,
    content := match m.content with | some c => c | none => "",
    tool_calls := m.tool_calls }

/-- The fixed system instruction (`ChatService.getSystemMessage`); its long
prompt text is abbreviated to a marker, which no claim inspects. -/
def systemMessage : Msg :=
  { role := Role.system, content := "SYSTEM_PROMPT" }

/-- Model of `ChatService.getConversationHistory` in in-memory mode: return the stored
history, or initialize the conversation with the system entry. Returns the
history together with the updated state (the source stores the fresh
`[systemMessage]` array in the map before returning it). -/
def getConversationHistoryMem (s : ServiceState) (conversationId : String) :
    List Msg × ServiceState :=
  match lookupKey s.inMemoryConversations conversationId with
  | some h => (h, s)
  | none =>
    ([systemMessage],
     { s with inMemoryConversations :=
         upsert s.inMemoryConversations conversationId [systemMessage] })

/-- The inner `for (const toolCall of assistantMessage.tool_calls)` loop:
execute each skill, append the tool-result entry, and overwrite the
`skillExecution` metadata with the most recent execution. The third component
accumulates the `(name, arguments)` of every `executeSkill` invocation. -/
def execToolCalls (execSkill : String → String → SkillExecutionResult)
    (calls : List ToolCall) (history : List Msg)
    (skillExec : Option SkillExecution) (calLog : List (String × String)) :
    List Msg × Option SkillExecution × List (String × String) :=
  match calls with
  | [] => (history, skillExec, calLog)
  | tc :: rest =>
    let result := execSkill tc.name tc.arguments
    let se : SkillExecution :=
      { skillName := tc.name, input := tc.arguments,
        output := toolResultPayload result }
    let entry : Msg :=
      { role := Role.tool, content := toolResultPayload result,
        tool_call_id := some tc.id }
    execToolCalls execSkill rest (history ++ [entry]) (some se)
      (calLog ++ [(tc.name, tc.arguments)])

/-- Result of the `while (assistantMessage.tool_calls ...)` loop: the final
transcript, the final (tool-free) assistant message, the last recorded
`skillExecution`, and the log of `executeSkill` invocations — or the thrown
error message (`failed`). -/
inductive LoopOutcome : Type
  | done (history : List Msg) (final : AssistantMessage)
      (skillExec : Option SkillExecution) (calLog : List (String × String))
  | failed (err : String) (calLog : List (String × String))
deriving DecidableEq, Repr

/-- The `while` loop of `processAsync`, fuel-bounded: `rounds` is the number
of further iterations the embedding allows; since the source loop has no
iteration bound, `none` means the loop was still running when the allowance
ran out. `callIdx` numbers the next `chat.completions.create` call. -/
def toolLoop (execSkill : String → String → SkillExecutionResult)
    (model : Nat → Option AssistantMessage) (rounds callIdx : Nat)
    (history : List Msg) (current : AssistantMessage)
    (skillExec : Option SkillExecution) (calLog : List (String × String)) :
    Option LoopOutcome :=
  if current.tool_calls = [] then
    some (LoopOutcome.done history current skillExec calLog)
  else
    match rounds with
    | 0 => none
    | rounds' + 1 =>
      let history₁ := history ++ [Msg.ofAssistant current]
      let step := execToolCalls execSkill current.tool_calls history₁ skillExec calLog
      match model callIdx with
      | none => some (LoopOutcome.failed "No response from OpenAI" step.2.2)
      | some next =>
        toolLoop execSkill model rounds' (callIdx + 1) step.1 next step.2.1 step.2.2

/-- The terminal push events emitted through `ChatServiceCallbacks`. -/
inductive CallbackEvent : Type
  | messageComplete (requestId : String) (message : ChatMessage)
  | messageError (requestId : String) (error : String)
deriving DecidableEq, Repr

/-- Result of one `processAsync` run: the service state after the terminal
transition, the callback events fired, and the `executeSkill` invocation log. -/
structure AsyncResult : Type where
  state : ServiceState
  events : List CallbackEvent
  calLog : List (String × String)
deriving DecidableEq, Repr

/-- Model of `ChatService.processAsync` in in-memory mode (`db = none`): transition to
`processing`, load/initialize the conversation history, append the user
message, drive the model/tool loop, store the final history, and transition to
`completed` (or `error` on a thrown failure), firing the matching callback.
`rounds` is the fuel for the unbounded `while` loop (`none` = still running);
`responseId` stands for the generated id of the response `ChatMessage`. -/
def processAsync (execSkill : String → String → SkillExecutionResult)
    (model : Nat → Option AssistantMessage) (rounds : Nat) (s : ServiceState)
    (requestId conversationId message responseId : String) :
    Option AsyncResult :=
  let s₁ := updateRequestStatus s requestId RequestStatus.processing
  let hs := getConversationHistoryMem s₁ conversationId
  let history := hs.1 ++ [{ role := Role.user, content := message : Msg }]
  match model 0 with
  | none =>
    let e := "No response from OpenAI"
    some { state := failRequest hs.2 requestId e,
           events := [CallbackEvent.messageError requestId e], calLog := [] }
  | some first =>
    match toolLoop execSkill model rounds 1 history first none [] with
    | none => none
    | some (LoopOutcome.failed e calLog) =>
      some { state := failRequest hs.2 requestId e,
             events := [CallbackEvent.messageError requestId e],
             calLog := calLog }
    | some (LoopOutcome.done history' final skillExec calLog) =>
      let finalHistory := history' ++ [Msg.ofAssistant final]
      let chatMessage : ChatMessage :=
        { id := responseId, role := Role.assistant,
          content := match final.content with | some c => c | none => "",
          skillExecution := skillExec }
      let convs := upsert hs.2.inMemoryConversations conversationId finalHistory
      let s₂ : ServiceState := { hs.2 with inMemoryConversations := convs }
      some { state := completeRequest s₂ requestId chatMessage,
             events := [CallbackEvent.messageComplete requestId chatMessage],
             calLog := calLog }

/-! WebSocket connections and the completion fan-out (`app.ts`). -/

/-- One entry of the `wsConnections` map: the connection id and the
`conversationId` recorded on the first submission over that channel. -/
structure WsConn : Type where
  connId : String
  conversationId : Option String := none
deriving DecidableEq, Repr

/-- Push events sent to WebSocket clients on terminal transitions. -/
inductive WsEvent : Type
  | messageComplete (requestId : String) (message : ChatMessage)
  | messageError (requestId : String) (error : String)
deriving DecidableEq, Repr

/-- The `onMessageComplete` callback installed in `app.ts`: iterates the
whole `wsConnections` map and sends the event to every connection. -/
def broadcastComplete (conns : List WsConn) (requestId : String)
    (message : ChatMessage) : List (String × WsEvent) :=
  conns.map (fun c => (c.connId, WsEvent.messageComplete requestId message))

/-- The `onMessageError` callback installed in `app.ts`: likewise sends to
every connection. -/
def broadcastError (conns : List WsConn) (requestId : String) (error : String) :
    List (String × WsEvent) :=
  conns.map (fun c => (c.connId, WsEvent.messageError requestId error))

/-- WebSocket `open` handler: registers the connection with no conversation. -/
def wsOpen (conns : List WsConn) (connId : String) : List WsConn :=
  conns ++ [{ connId := connId }]

/-- The association step of the WebSocket `message` handler: after a
successful submission, `conn.conversationId = convId` on the sender's entry. -/
def wsAssociate (conns : List WsConn) (connId convId : String) : List WsConn :=
  conns.map (fun c =>
    if c.connId = connId then { c with conversationId := some convId } else c)

/-! The skill executor (`MCPManager.executeSkill`). -/

/-- The connected MCP client, abstracted to its `callTool` capability:
given the tool name and arguments it either returns the result content or
throws (`Except.error`). -/
def McpClient : Type := String → String → Except String String

/-- Model of `MCPManager.executeSkill`: returns a `SkillExecutionResult` in every case —
`\x7b success: false, error: 'MCP client not connected' \x7d` when no client is
connected, the content on success, and a caught error otherwise; it never
propagates an exception. -/
def executeSkill (client : Option McpClient) (name input : String) :
    SkillExecutionResult :=
  match client with
  | none => { success := false, error := some "MCP client not connected" }
  | some callTool =>
    match callTool name input with
    | Except.ok content => { success := true, output := some content }
    | Except.error e => { success := false, error := some e }

/-! Server operation traces. -/

/-- The operations that touch the pending-request store: a poll
(`GET /api/messages`), a submission (`processMessage`), and the three
transitions performed by `processAsync`. -/
inductive ServerOp : Type
  | poll (requestId : String)
  | chat (requestId conversationId message : String) (now : Nat) (dbInsertOk : Bool)
  | updateStatus (requestId : String) (status : RequestStatus)
  | complete (requestId : String) (response : ChatMessage)
  | fail (requestId : String) (error : String)

/-- State effect of one operation (a poll is a pure read). -/
def applyOp (s : ServiceState) : ServerOp → ServiceState
  | ServerOp.poll _ => s
  | ServerOp.chat rid conv msg now dbOk => (processMessage s rid conv msg now dbOk).2
  | ServerOp.updateStatus rid st => updateRequestStatus s rid st
  | ServerOp.complete rid m => completeRequest s rid m
  | ServerOp.fail rid e => failRequest s rid e

/-- Run a sequence of operations. -/
def runOps (s : ServiceState) : List ServerOp → ServiceState
  | [] => s
  | op :: rest => runOps (applyOp s op) rest

/-- The request ids allocated by the submissions of a trace. -/
def chatIds : List ServerOp → List String
  | [] => []
  | ServerOp.chat rid _ _ _ _ :: rest => rid :: chatIds rest
  | _ :: rest => chatIds rest

/-! Concrete fixtures for witnesses and counterexamples. -/

/-- A stubbed skill executor that always succeeds. -/
def execOkStub : String → String → SkillExecutionResult :=
  fun _ _ => { success := true, output := some "42" }

/-- A stubbed skill executor whose every call returns
`\x7b success: false, error: "boom" \x7d`. -/
def execBoomStub : String → String → SkillExecutionResult :=
  fun _ _ => { success := false, error := some "boom" }

/-- A first tool call requested by the scripted models. -/
def tcA : ToolCall := { id := "call_1", name := "skillA", arguments := "\x7b\x7d" }

/-- A second tool call requested by the scripted models. -/
def tcB : ToolCall := { id := "call_2", name := "skillB", arguments := "\x7b\x7d" }

/-- An assistant message that requests a tool call. -/
def alwaysToolMsg : AssistantMessage := { content := none, tool_calls := [tcA] }

/-- A model that requests another tool call on every turn. -/
def alwaysToolModel : Nat → Option AssistantMessage := fun _ => some alwaysToolMsg

/-- A scripted model: two single-tool-call rounds, then a final answer. -/
def twoRoundModel : Nat → Option AssistantMessage
  | 0 => some { content := none, tool_calls := [tcA] }
  | 1 => some { content := none, tool_calls := [tcB] }
  | _ => some { content := some "final answer", tool_calls := [] }

/-- A scripted model: one tool-call round, then a final answer. -/
def oneRoundModel : Nat → Option AssistantMessage
  | 0 => some { content := none, tool_calls := [tcA] }
  | _ => some { content := some "the skill failed", tool_calls := [] }

/-- A pending request for conversation `c1`, as stored by `processMessage`. -/
def req1 : PendingRequest :=
  { id := "r1", status := RequestStatus.pending, conversationId := "c1",
    userMessage := "What is 2+2?", createdAt := 0 }

/-- Service state holding the pending request `r1` in memory (no database). -/
def st1 : ServiceState := { inMemoryPendingRequests := [("r1", req1)] }

/-- A completed response message. -/
def mDone : ChatMessage := { id := "m1", role := Role.assistant, content := "4" }

/-- The request `r1` in the terminal state `completed`. -/
def reqDone : PendingRequest :=
  { req1 with status := RequestStatus.completed, response := some mDone }

/-- Service state holding the already-completed request `r1`. -/
def stDone : ServiceState := { inMemoryPendingRequests := [("r1", reqDone)] }

/-- Fresh service state in database mode (empty pending-requests table). -/
def stDb : ServiceState := { db := some [] }

/-- The pending-request row stored by the db-mode submission of `r9`. -/
def row9 : PendingRequest :=
  { id := "r9", status := RequestStatus.pending, conversationId := "c9",
    userMessage := "hi", createdAt := 3 }

/-- Observer: the stored status of a request after a `processAsync` run
(`none` when the run is unfinished or the request unknown). -/
def requestStatusAfter (o : Option AsyncResult) (rid : String) :
    Option RequestStatus :=
  match o with
  | none => none
  | some res => (getRequestStatus res.state rid).map PendingRequest.status

/-- Observer: the stored transcript of a conversation after a run. -/
def transcriptAfter (o : Option AsyncResult) (conv : String) : List Msg :=
  match o with
  | none => []
  | some res => (lookupKey res.state.inMemoryConversations conv).getD []

/-- Observer: the `executeSkill` invocation log of a run. -/
def calLogAfter (o : Option AsyncResult) : List (String × String) :=
  match o with
  | none => []
  | some res => res.calLog

/-- The run of the two-tool-round scripted scenario. -/
def twoRoundRun : Option AsyncResult :=
  processAsync execOkStub twoRoundModel 10 st1 "r1" "c1" "What is 2+2?" "m1"

/-- The result value of the two-tool-round scripted scenario. -/
def twoRoundRes : AsyncResult :=
  twoRoundRun.getD { state := st1, events := [], calLog := [] }

/-- The run of the failing-skill scenario. -/
def boomRun : Option AsyncResult :=
  processAsync execBoomStub oneRoundModel 10 st1 "r1" "c1" "use the skill" "m1"

/-- Connection set built through the WebSocket handlers: `A` associated with
conversation `c1`, `B` with `c2`, `C` with no conversation. -/
def conns3 : List WsConn :=
  wsAssociate (wsAssociate (wsOpen (wsOpen (wsOpen [] "A") "B") "C") "A" "c1")
    "B" "c2"

/-! Helper lemmas. -/

theorem getMessagesEndpoint_absent (s : ServiceState) (rid : String)
    (h : getRequestStatus s rid = none) :
    getMessagesEndpoint s rid =
      { success := false, status := "not_found", message := none,
        error := some "Request not found" } := by
  unfold getMessagesEndpoint
  rw [h]

theorem setInMemory_lookup_self (m : List (String × PendingRequest))
    (rid : String) (f : PendingRequest → PendingRequest) (r : PendingRequest)
    (h : lookupKey m rid = some r) :
    lookupKey (setInMemory m rid f) rid = some (f r) := by
  unfold setInMemory
  rw [h]
  exact lookupKey_upsert_self m rid (f r)

theorem setInMemory_absent (m : List (String × PendingRequest))
    (rid rid₀ : String) (f : PendingRequest → PendingRequest)
    (h : lookupKey m rid₀ = none) :
    lookupKey (setInMemory m rid f) rid₀ = none := by
  unfold setInMemory
  cases hl : lookupKey m rid with
  | none => exact h
  | some r =>
    by_cases he : rid₀ = rid
    · subst he
      rw [h] at hl
      cases hl
    · rw [lookupKey_upsert_ne _ _ _ _ he]
      exact h

theorem processMessage_absent (s : ServiceState)
    (rid' conv msg : String) (now : Nat) (dbOk : Bool) (rid : String)
    (hne : rid ≠ rid')
    (h : lookupKey s.inMemoryPendingRequests rid = none) :
    lookupKey (processMessage s rid' conv msg now dbOk).2.inMemoryPendingRequests
      rid = none := by
  unfold processMessage
  cases s.db with
  | none =>
    dsimp only
    rw [lookupKey_upsert_ne _ _ _ _ hne]
    exact h
  | some rows =>
    cases dbOk with
    | false => simp [lookupKey_upsert_ne _ _ _ _ hne, h]
    | true => exact h

theorem runOps_polls_id (polls : List ServerOp) :
    ∀ s : ServiceState, (∀ op ∈ polls, ∃ rid', op = ServerOp.poll rid') →
      runOps s polls = s := by
  induction polls with
  | nil => intro s _; rfl
  | cons op rest ih =>
    intro s h
    obtain ⟨rid', hop⟩ := h op (List.mem_cons_self op rest)
    subst hop
    exact ih s (fun o ho => h o (List.mem_cons_of_mem _ ho))

theorem runOps_absent (ops : List ServerOp) :
    ∀ (s : ServiceState) (rid : String),
      lookupKey s.inMemoryPendingRequests rid = none →
      rid ∉ chatIds ops →
      lookupKey (runOps s ops).inMemoryPendingRequests rid = none := by
  induction ops with
  | nil => intro s rid h _; exact h
  | cons op rest ih =>
    intro s rid h hsub
    cases op with
    | poll rid' => exact ih s rid h (by simpa [chatIds] using hsub)
    | chat rid' conv msg now dbOk =>
      have hne : rid ≠ rid' := by
        intro he
        exact hsub (by simp [chatIds, he])
      have hrest : rid ∉ chatIds rest := by
        intro hm
        exact hsub (by simp [chatIds, hm])
      exact ih _ rid (processMessage_absent s rid' conv msg now dbOk rid hne h) hrest
    | updateStatus rid' st =>
      exact ih _ rid (setInMemory_absent _ _ _ _ h) (by simpa [chatIds] using hsub)
    | complete rid' m =>
      exact ih _ rid (setInMemory_absent _ _ _ _ h) (by simpa [chatIds] using hsub)
    | fail rid' e =>
      exact ih _ rid (setInMemory_absent _ _ _ _ h) (by simpa [chatIds] using hsub)

theorem execToolCalls_extends (execSkill : String → String → SkillExecutionResult)
    (calls : List ToolCall) :
    ∀ (history : List Msg) (skillExec : Option SkillExecution)
      (calLog : List (String × String)), ∃ suffix,
      (execToolCalls execSkill calls history skillExec calLog).1 =
        history ++ suffix := by
  induction calls with
  | nil => intro history skillExec calLog; exact ⟨[], by simp [execToolCalls]⟩
  | cons tc rest ih =>
    intro history skillExec calLog
    obtain ⟨suffix, hs⟩ := ih (history ++
      [{ role := Role.tool, content := toolResultPayload (execSkill tc.name tc.arguments),
         tool_call_id := some tc.id }]) (some
      { skillName := tc.name, input := tc.arguments,
        output := toolResultPayload (execSkill tc.name tc.arguments) })
      (calLog ++ [(tc.name, tc.arguments)])
    refine ⟨[{ role := Role.tool,
               content := toolResultPayload (execSkill tc.name tc.arguments),
               tool_call_id := some tc.id }] ++ suffix, ?_⟩
    rw [execToolCalls, hs, List.append_assoc]

theorem toolLoop_done_extends (execSkill : String → String → SkillExecutionResult)
    (model : Nat → Option AssistantMessage) (rounds : Nat) :
    ∀ (callIdx : Nat) (history : List Msg) (current : AssistantMessage)
      (skillExec : Option SkillExecution) (calLog : List (String × String))
      (h' : List Msg) (f : AssistantMessage) (se' : Option SkillExecution)
      (log' : List (String × String)),
      toolLoop execSkill model rounds callIdx history current skillExec calLog =
        some (LoopOutcome.done h' f se' log') →
      ∃ suffix, h' = history ++ suffix := by
  induction rounds with
  | zero =>
    intro callIdx history current skillExec calLog h' f se' log' h
    by_cases hc : current.tool_calls = []
    · rw [toolLoop, if_pos hc] at h
      injection h with h
      injection h with h₁ h₂ h₃ h₄
      exact ⟨[], by simp [h₁]⟩
    · rw [toolLoop, if_neg hc] at h
      cases h
  | succ n ih =>
    intro callIdx history current skillExec calLog h' f se' log' h
    by_cases hc : current.tool_calls = []
    · rw [toolLoop, if_pos hc] at h
      injection h with h
      injection h with h₁ h₂ h₃ h₄
      exact ⟨[], by simp [h₁]⟩
    · rw [toolLoop, if_neg hc] at h
      dsimp only at h
      cases hm : model callIdx with
      | none =>
        rw [hm] at h
        cases h
      | some next =>
        rw [hm] at h
        obtain ⟨suffix₂, hs₂⟩ := ih _ _ _ _ _ _ _ _ _ h
        obtain ⟨suffix₁, hs₁⟩ := execToolCalls_extends execSkill
          current.tool_calls (history ++ [Msg.ofAssistant current]) skillExec calLog
        exact ⟨_, by rw [hs₂, hs₁, List.append_assoc, List.append_assoc]⟩

theorem toolLoop_failed_is_model_failure
    (execSkill : String → String → SkillExecutionResult)
    (model : Nat → Option AssistantMessage) (rounds : Nat) :
    ∀ (callIdx : Nat) (history : List Msg) (current : AssistantMessage)
      (skillExec : Option SkillExecution) (calLog : List (String × String))
      (e : String) (log' : List (String × String)),
      toolLoop execSkill model rounds callIdx history current skillExec calLog =
        some (LoopOutcome.failed e log') →
      e = "No response from OpenAI" := by
  induction rounds with
  | zero =>
    intro callIdx history current skillExec calLog e log' h
    by_cases hc : current.tool_calls = []
    · rw [toolLoop, if_pos hc] at h
      cases h
    · rw [toolLoop, if_neg hc] at h
      cases h
  | succ n ih =>
    intro callIdx history current skillExec calLog e log' h
    by_cases hc : current.tool_calls = []
    · rw [toolLoop, if_pos hc] at h
      cases h
    · rw [toolLoop, if_neg hc] at h
      dsimp only at h
      cases hm : model callIdx with
      | none =>
        rw [hm] at h
        injection h with h
        injection h with h₁ h₂
        exact h₁.symm
      | some next =>
        rw [hm] at h
        exact ih _ _ _ _ _ _ _ h

theorem execToolCalls_mem (execSkill : String → String → SkillExecutionResult)
    (calls : List ToolCall) :
    ∀ (history : List Msg) (skillExec : Option SkillExecution)
      (calLog : List (String × String)) (m : Msg), m ∈ history →
      m ∈ (execToolCalls execSkill calls history skillExec calLog).1 := by
  intro history skillExec calLog m hm
  obtain ⟨suffix, hs⟩ := execToolCalls_extends execSkill calls history skillExec calLog
  rw [hs]
  exact List.mem_append_left _ hm

theorem execToolCalls_mem_failure
    (execSkill : String → String → SkillExecutionResult) (calls : List ToolCall) :
    ∀ (history : List Msg) (skillExec : Option SkillExecution)
      (calLog : List (String × String)) (tc : ToolCall) (e : String),
      tc ∈ calls →
      (execSkill tc.name tc.arguments).success = false →
      (execSkill tc.name tc.arguments).error = some e →
      ({ role := Role.tool, content := jsonError e, tool_call_id := some tc.id } : Msg)
        ∈ (execToolCalls execSkill calls history skillExec calLog).1 := by
  induction calls with
  | nil =>
    intro history skillExec calLog tc e htc _ _
    cases htc
  | cons tc' rest ih =>
    intro history skillExec calLog tc e htc hfail herr
    rcases List.mem_cons.mp htc with he | htl
    · subst he
      have hpayload : toolResultPayload (execSkill tc.name tc.arguments) = jsonError e := by
        unfold toolResultPayload
        rw [hfail, herr]
        simp
      rw [execToolCalls]
      apply execToolCalls_mem
      rw [hpayload]
      exact List.mem_append_right _ (by simp)
    · rw [execToolCalls]
      exact ih _ _ _ tc e htl hfail herr

theorem getConversationHistoryMem_fresh (s : ServiceState) (conv : String)
    (h : lookupKey s.inMemoryConversations conv = none) :
    getConversationHistoryMem s conv =
      ([systemMessage],
       { s with inMemoryConversations :=
           upsert s.inMemoryConversations conv [systemMessage] }) := by
  unfold getConversationHistoryMem
  rw [h]

theorem processAsync_conversations_head
    (execSkill : String → String → SkillExecutionResult)
    (model : Nat → Option AssistantMessage) (rounds : Nat) (s : ServiceState)
    (rid conv msg mid : String) (res : AsyncResult)
    (hnone : lookupKey s.inMemoryConversations conv = none)
    (hrun : processAsync execSkill model rounds s rid conv msg mid = some res) :
    ∃ rest, lookupKey res.state.inMemoryConversations conv =
      some (systemMessage :: rest) := by
  have hconv₁ : lookupKey (updateRequestStatus s rid
      RequestStatus.processing).inMemoryConversations conv = none := hnone
  unfold processAsync at hrun
  dsimp only at hrun
  rw [getConversationHistoryMem_fresh _ _ hconv₁] at hrun
  dsimp only at hrun
  split at hrun
  · -- the first model call returned nothing: the run fails, the stored
    -- transcript is the freshly initialized [systemMessage]
    injection hrun with hres
    refine ⟨[], ?_⟩
    rw [← hres]
    dsimp only [failRequest]
    exact lookupKey_upsert_self _ conv [systemMessage]
  · rename_i first hm0
    split at hrun
    · exact Option.noConfusion hrun
    · -- the loop threw: the stored transcript is the initialized [systemMessage]
      injection hrun with hres
      refine ⟨[], ?_⟩
      rw [← hres]
      dsimp only [failRequest]
      exact lookupKey_upsert_self _ conv [systemMessage]
    · -- the loop finished: the stored transcript extends [systemMessage, user]
      rename_i h' f se log heq
      injection hrun with hres
      obtain ⟨suffix, hsuf⟩ := toolLoop_done_extends execSkill model rounds 1
        _ first none [] h' f se log heq
      refine ⟨({ role := Role.user, content := msg } : Msg) ::
        (suffix ++ [Msg.ofAssistant f]), ?_⟩
      rw [← hres]
      dsimp only [completeRequest]
      rw [lookupKey_upsert_self, hsuf]
      simp

/-! Claim theorems. -/

/-- C1, counterexample: terminal states are not absorbing in the code. On the
concrete store holding the already-`completed` request `r1` (with its response
attached), a call of `failRequest` succeeds and changes the stored status to
`error` and sets the error field — instead of failing with `InvalidTransition`
and leaving the state unchanged, as the claim states. -/
theorem failRequest_on_completed_overwrites :
    getRequestStatus stDone "r1" = some reqDone ∧
    reqDone.status = RequestStatus.completed ∧
    (getRequestStatus (failRequest stDone "r1" "late") "r1").map
      PendingRequest.status = some RequestStatus.error ∧
    (getRequestStatus (failRequest stDone "r1" "late") "r1").bind
      PendingRequest.error = some "late" := by
  decide

/-- C1, amended: `updateRequestStatus`, `completeRequest` and `failRequest`
contain no check of the current status — for every stored request, terminal or
not, they unconditionally overwrite the stored status and attach the response
resp. error; no `InvalidTransition` failure exists in the code. -/
theorem transitions_unconditionally_overwrite (s : ServiceState) (rid : String)
    (r : PendingRequest) (e : String) (m : ChatMessage) (st : RequestStatus)
    (hr : getRequestStatus s rid = some r) :
    getRequestStatus (failRequest s rid e) rid =
      some { r with status := RequestStatus.error, error := some e } ∧
    getRequestStatus (completeRequest s rid m) rid =
      some { r with status := RequestStatus.completed, response := some m } ∧
    getRequestStatus (updateRequestStatus s rid st) rid =
      some { r with status := st } := by
  refine ⟨?_, ?_, ?_⟩ <;> exact setInMemory_lookup_self _ _ _ r hr

/-- Witness for C1: instantiating the amended theorem on the already-completed
request `r1` of `stDone`. -/
theorem transitions_unconditionally_overwrite_witness :
    getRequestStatus (failRequest stDone "r1" "late") "r1" =
      some { reqDone with status := RequestStatus.error, error := some "late" } ∧
    getRequestStatus (completeRequest stDone "r1" mDone) "r1" =
      some { reqDone with status := RequestStatus.completed, response := some mDone } ∧
    getRequestStatus (updateRequestStatus stDone "r1" RequestStatus.processing) "r1" =
      some { reqDone with status := RequestStatus.processing } :=
  transitions_unconditionally_overwrite stDone "r1" reqDone "late" mDone
    RequestStatus.processing (by decide)

/-- C2, counterexample: the tool loop of `processAsync` has no iteration
bound. With the model that requests another tool call on every turn, a run
allowed 5 rounds is still unfinished (`none`) — the request has not reached
`error` with a "loop limit exceeded" reason after any configured bound,
contrary to the claim. -/
theorem always_tool_model_run_unfinished :
    processAsync execOkStub alwaysToolModel 5 st1 "r1" "c1" "hi" "m1" = none ∧
    requestStatusAfter
      (processAsync execOkStub alwaysToolModel 5 st1 "r1" "c1" "hi" "m1") "r1" ≠
      some RequestStatus.error := by
  decide

/-- C2, amended: the `while (assistantMessage.tool_calls ...)` loop is
unbounded — with a model that requests another tool call on every turn, the
loop is still running after every number of rounds, and the whole
`processAsync` run never reaches a terminal state; no loop-limit error exists
in the code. -/
theorem tool_loop_unbounded :
    (∀ (execSkill : String → String → SkillExecutionResult)
       (rounds callIdx : Nat) (history : List Msg)
       (skillExec : Option SkillExecution) (calLog : List (String × String)),
      toolLoop execSkill alwaysToolModel rounds callIdx history alwaysToolMsg
        skillExec calLog = none) ∧
    (∀ (execSkill : String → String → SkillExecutionResult) (rounds : Nat)
       (s : ServiceState) (rid conv msg mid : String),
      processAsync execSkill alwaysToolModel rounds s rid conv msg mid = none) := by
  have hloop : ∀ (execSkill : String → String → SkillExecutionResult)
      (rounds callIdx : Nat) (history : List Msg)
      (skillExec : Option SkillExecution) (calLog : List (String × String)),
      toolLoop execSkill alwaysToolModel rounds callIdx history alwaysToolMsg
        skillExec calLog = none := by
    intro execSkill rounds
    induction rounds with
    | zero =>
      intro callIdx history skillExec calLog
      rw [toolLoop, if_neg (by decide : ¬(alwaysToolMsg.tool_calls = []))]
    | succ n ih =>
      intro callIdx history skillExec calLog
      rw [toolLoop, if_neg (by decide : ¬(alwaysToolMsg.tool_calls = []))]
      exact ih (callIdx + 1) _ _ _
  refine ⟨hloop, ?_⟩
  intro execSkill rounds s rid conv msg mid
  simp only [processAsync, alwaysToolModel, hloop]

/-- C3, counterexample: the completion fan-out is not filtered by
conversation. With three connections built through the WebSocket handlers —
`A` associated (by the message handler) with the request's conversation `c1`,
`B` associated with the unrelated conversation `c2`, and `C` never associated —
the `message_complete` event of request `r1` (conversation `c1`) is also
delivered to `B` and to `C`, contrary to the claim. -/
theorem broadcast_reaches_unrelated_connection :
    reqDone.conversationId = "c1" ∧
    conns3 = [{ connId := "A", conversationId := some "c1" },
              { connId := "B", conversationId := some "c2" },
              { connId := "C", conversationId := none }] ∧
    ("B", WsEvent.messageComplete "r1" mDone) ∈ broadcastComplete conns3 "r1" mDone ∧
    ("C", WsEvent.messageComplete "r1" mDone) ∈ broadcastComplete conns3 "r1" mDone := by
  decide

/-- C3, amended: the `onMessageComplete` / `onMessageError` callbacks iterate
the whole `wsConnections` map — every open connection receives every terminal
event, regardless of which conversation (if any) the connection is associated
with. -/
theorem broadcast_delivers_to_every_connection (conns : List WsConn)
    (rid : String) (m : ChatMessage) (e : String) (c : WsConn)
    (hc : c ∈ conns) :
    (c.connId, WsEvent.messageComplete rid m) ∈ broadcastComplete conns rid m ∧
    (c.connId, WsEvent.messageError rid e) ∈ broadcastError conns rid e := by
  constructor <;> exact List.mem_map_of_mem _ hc

/-- Witness for C3: connection `B` (associated with conversation `c2`)
receives the events of request `r1` of conversation `c1`. -/
theorem broadcast_delivers_to_every_connection_witness :
    ("B", WsEvent.messageComplete "r1" mDone) ∈ broadcastComplete conns3 "r1" mDone ∧
    ("B", WsEvent.messageError "r1" "oops") ∈ broadcastError conns3 "r1" "oops" :=
  broadcast_delivers_to_every_connection conns3 "r1" mDone "oops"
    { connId := "B", conversationId := some "c2" } (by decide)

/-- C6: a `POST /api/chat` body whose message is empty or all-whitespace is
rejected synchronously with `success: false`, and the service state is
returned unchanged — no `PendingRequest` is created and no request id is
allocated. -/
theorem blank_message_rejected_without_request (s : ServiceState)
    (message : String) (conversationId : Option String)
    (freshConvId freshReqId : String) (now : Nat) (dbInsertOk : Bool)
    (h : isBlank message = true) :
    postChatEndpoint s message conversationId freshConvId freshReqId now
      dbInsertOk =
      ({ success := false, error := some "Message is required" }, s) := by
  simp [postChatEndpoint, h]

/-- Witness for C6: the whitespace-only message `"  \t "` is rejected and the
store is untouched. -/
theorem blank_message_rejected_without_request_witness :
    postChatEndpoint st1 "  \t " none "cX" "rX" 7 true =
      ({ success := false, error := some "Message is required" }, st1) :=
  blank_message_rejected_without_request st1 "  \t " none "cX" "rX" 7 true
    (by decide)

/-- C10: `MCPManager.executeSkill` is total at its interface — it returns a
`SkillExecutionResult` in every case and never propagates an exception: with
no MCP client connected it returns
`\x7b success: false, error: "MCP client not connected" \x7d`; an error thrown
by the underlying `callTool` is caught and returned as
`\x7b success: false, error \x7d`; a successful call yields
`\x7b success: true, output \x7d`. -/
theorem executeSkill_total (name input : String) :
    executeSkill none name input =
      { success := false, output := none,
        error := some "MCP client not connected" } ∧
    (∀ (f : McpClient) (e : String), f name input = Except.error e →
      executeSkill (some f) name input =
        { success := false, output := none, error := some e }) ∧
    (∀ (f : McpClient) (o : String), f name input = Except.ok o →
      executeSkill (some f) name input =
        { success := true, output := some o, error := none }) := by
  refine ⟨rfl, ?_, ?_⟩ <;> intro f v h <;> simp only [executeSkill] <;> rw [h]

/-- Witness for C10: a client whose `callTool` throws `"boom"` yields the
caught failure result. -/
theorem executeSkill_total_witness :
    executeSkill (some (fun _ _ => Except.error "boom")) "skillA" "\x7b\x7d" =
      { success := false, output := none, error := some "boom" } :=
  (executeSkill_total "skillA" "\x7b\x7d").2.1
    (fun _ _ => Except.error "boom") "boom" rfl

/-- C7: for every request id absent from the in-memory map (in particular,
from server start, every id never returned by a submission, since submissions
are the only operations that insert) and never allocated by a submission of
the trace, `GET /api/messages/:requestId` answers `success: false` with status
`not_found`. -/
theorem unknown_request_not_found (s : ServiceState) (ops : List ServerOp)
    (rid : String) (h0 : getRequestStatus s rid = none)
    (hsub : rid ∉ chatIds ops) :
    getMessagesEndpoint (runOps s ops) rid =
      { success := false, status := "not_found", message := none,
        error := some "Request not found" } := by
  have habs := runOps_absent ops s rid h0 hsub
  unfold getMessagesEndpoint getRequestStatus
  rw [habs]

/-- Witness for C7: after a submission of `r2` and further operations, polling
the never-submitted id `ghost` answers `not_found`. -/
theorem unknown_request_not_found_witness :
    getMessagesEndpoint (runOps st1
      [ServerOp.chat "r2" "c2" "hello" 1 true, ServerOp.poll "ghost",
       ServerOp.complete "r2" mDone]) "ghost" =
      { success := false, status := "not_found", message := none,
        error := some "Request not found" } :=
  unknown_request_not_found st1
    [ServerOp.chat "r2" "c2" "hello" 1 true, ServerOp.poll "ghost",
     ServerOp.complete "r2" mDone] "ghost" (by decide) (by decide)

/-- C8: polling is a pure read — for a request stored in a terminal state,
any number of intervening polls leaves the service state unchanged and
repeated `GET /api/messages/:requestId` lookups return the identical payload,
namely the stored status, response message and error. -/
theorem terminal_lookup_idempotent (s : ServiceState) (rid : String)
    (r : PendingRequest) (polls : List ServerOp)
    (hr : getRequestStatus s rid = some r)
    (_hterm : r.status = RequestStatus.completed ∨ r.status = RequestStatus.error)
    (hpolls : ∀ op ∈ polls, ∃ rid', op = ServerOp.poll rid') :
    runOps s polls = s ∧
    getMessagesEndpoint (runOps s polls) rid = getMessagesEndpoint s rid ∧
    getMessagesEndpoint s rid =
      { success := true, status := statusString r.status,
        message := r.response, error := r.error } := by
  have hid := runOps_polls_id polls s hpolls
  refine ⟨hid, by rw [hid], ?_⟩
  unfold getMessagesEndpoint
  rw [hr]

/-- Witness for C8: two polls against the completed request `r1` of `stDone`
change nothing and return the stored payload. -/
theorem terminal_lookup_idempotent_witness :
    runOps stDone [ServerOp.poll "r1", ServerOp.poll "zzz"] = stDone ∧
    getMessagesEndpoint (runOps stDone [ServerOp.poll "r1", ServerOp.poll "zzz"])
      "r1" = getMessagesEndpoint stDone "r1" ∧
    getMessagesEndpoint stDone "r1" =
      { success := true, status := statusString reqDone.status,
        message := reqDone.response, error := reqDone.error } :=
  terminal_lookup_idempotent stDone "r1" reqDone
    [ServerOp.poll "r1", ServerOp.poll "zzz"] (by decide) (Or.inl (by decide))
    (by
      intro op hop
      rcases List.mem_cons.mp hop with he | hop'
      · exact ⟨"r1", he⟩
      · rcases List.mem_cons.mp hop' with he' | h0
        · exact ⟨"zzz", he'⟩
        · cases h0)

/-- C9 (implicit): when the database is available and the insert succeeds,
`processMessage` stores the pending request only in the database and leaves
the in-memory map untouched; since the synchronous `getRequestStatus` consults
only the in-memory map, the polling endpoint then reports `not_found` for a
request that exists (its row is in the database) and may still complete. -/
theorem db_stored_request_polls_not_found (s : ServiceState)
    (rows : List (String × PendingRequest)) (rid conv msg : String) (now : Nat)
    (hdb : s.db = some rows)
    (hmem : getRequestStatus s rid = none) :
    (processMessage s rid conv msg now true).1 = rid ∧
    (processMessage s rid conv msg now true).2.inMemoryPendingRequests =
      s.inMemoryPendingRequests ∧
    lookupKey ((processMessage s rid conv msg now true).2.db.getD []) rid =
      some { id := rid, status := RequestStatus.pending, conversationId := conv,
             userMessage := msg, createdAt := now } ∧
    getRequestStatus (processMessage s rid conv msg now true).2 rid = none ∧
    getMessagesEndpoint (processMessage s rid conv msg now true).2 rid =
      { success := false, status := "not_found", message := none,
        error := some "Request not found" } := by
  unfold processMessage
  rw [hdb]
  refine ⟨rfl, rfl, ?_, hmem, ?_⟩
  · exact lookupKey_upsert_self rows rid _
  · exact getMessagesEndpoint_absent _ rid hmem

/-- Witness for C9: a db-mode submission of `r9` stores the row in the
database, yet polling `r9` immediately answers `not_found`. -/
theorem db_stored_request_polls_not_found_witness :
    (processMessage stDb "r9" "c9" "hi" 3 true).1 = "r9" ∧
    (processMessage stDb "r9" "c9" "hi" 3 true).2.inMemoryPendingRequests =
      stDb.inMemoryPendingRequests ∧
    lookupKey ((processMessage stDb "r9" "c9" "hi" 3 true).2.db.getD []) "r9" =
      some row9 ∧
    getRequestStatus (processMessage stDb "r9" "c9" "hi" 3 true).2 "r9" = none ∧
    getMessagesEndpoint (processMessage stDb "r9" "c9" "hi" 3 true).2 "r9" =
      { success := false, status := "not_found", message := none,
        error := some "Request not found" } :=
  db_stored_request_polls_not_found stDb [] "r9" "c9" "hi" 3 rfl rfl

/-- C4: skill failure is non-fatal. Generally: in every tool round, each call
whose `executeSkill` result is `\x7b success: false, error: e \x7d` appends a
tool-role transcript entry whose content is the JSON `\x7b error: e \x7d`, and
the only error the loop itself can throw is a missing model response — a
skill failure never aborts the loop. Concretely: in the scripted failing-skill
run, the request still reaches `completed` (not `error`) and the stored
transcript contains the tool entry embedding `\x7b error: "boom" \x7d`. -/
theorem skill_failure_is_nonfatal :
    (∀ (execSkill : String → String → SkillExecutionResult)
       (calls : List ToolCall) (history : List Msg)
       (skillExec : Option SkillExecution) (calLog : List (String × String))
       (tc : ToolCall) (e : String), tc ∈ calls →
      (execSkill tc.name tc.arguments).success = false →
      (execSkill tc.name tc.arguments).error = some e →
      ({ role := Role.tool, content := jsonError e, tool_call_id := some tc.id } : Msg)
        ∈ (execToolCalls execSkill calls history skillExec calLog).1) ∧
    (∀ (execSkill : String → String → SkillExecutionResult)
       (model : Nat → Option AssistantMessage) (rounds callIdx : Nat)
       (history : List Msg) (current : AssistantMessage)
       (skillExec : Option SkillExecution) (calLog : List (String × String))
       (e : String) (log' : List (String × String)),
      toolLoop execSkill model rounds callIdx history current skillExec calLog =
        some (LoopOutcome.failed e log') → e = "No response from OpenAI") ∧
    requestStatusAfter boomRun "r1" = some RequestStatus.completed ∧
    ({ role := Role.tool, content := jsonError "boom",
       tool_call_id := some "call_1" } : Msg) ∈ transcriptAfter boomRun "c1" := by
  refine ⟨?_, ?_, by decide, by decide⟩
  · intro execSkill calls history skillExec calLog tc e htc hf he
    exact execToolCalls_mem_failure execSkill calls history skillExec calLog
      tc e htc hf he
  · intro execSkill model rounds callIdx history current skillExec calLog e log' h
    exact toolLoop_failed_is_model_failure execSkill model rounds callIdx
      history current skillExec calLog e log' h

/-- Witness for C4: the failing call `tcA` (error `"boom"`) appends the
error-embedding tool entry to the round's transcript. -/
theorem skill_failure_is_nonfatal_witness :
    ({ role := Role.tool, content := jsonError "boom",
       tool_call_id := some "call_1" } : Msg)
      ∈ (execToolCalls execBoomStub [tcA] [] none []).1 :=
  skill_failure_is_nonfatal.1 execBoomStub [tcA] [] none [] tcA "boom"
    (by decide) (by decide) (by decide)

/-- C5: transcript structure and order. Generally: for every run on a fresh
conversation, the stored transcript's first entry is the system instruction.
Concretely, with the scripted model that issues two single-tool-call rounds
and then a final answer: `executeSkill` is invoked exactly twice (the
invocation log is exactly the two calls, in order), the request completes,
and the stored transcript is exactly the 7-entry list — system, user,
assistant-with-call, tool-result, assistant-with-call, tool-result, final
assistant — in production order. -/
theorem transcript_structure_and_order :
    (∀ (execSkill : String → String → SkillExecutionResult)
       (model : Nat → Option AssistantMessage) (rounds : Nat) (s : ServiceState)
       (rid conv msg mid : String) (res : AsyncResult),
      lookupKey s.inMemoryConversations conv = none →
      processAsync execSkill model rounds s rid conv msg mid = some res →
      ∃ rest, lookupKey res.state.inMemoryConversations conv =
        some (systemMessage :: rest)) ∧
    calLogAfter twoRoundRun = [("skillA", "\x7b\x7d"), ("skillB", "\x7b\x7d")] ∧
    (calLogAfter twoRoundRun).length = 2 ∧
    transcriptAfter twoRoundRun "c1" =
      [systemMessage,
       { role := Role.user, content := "What is 2+2?" },
       { role := Role.assistant, content := "", tool_calls := [tcA] },
       { role := Role.tool, content := "42", tool_call_id := some "call_1" },
       { role := Role.assistant, content := "", tool_calls := [tcB] },
       { role := Role.tool, content := "42", tool_call_id := some "call_2" },
       { role := Role.assistant, content := "final answer" }] ∧
    (transcriptAfter twoRoundRun "c1").length = 7 ∧
    requestStatusAfter twoRoundRun "r1" = some RequestStatus.completed := by
  refine ⟨?_, by decide, by decide, by decide, by decide, by decide⟩
  intro execSkill model rounds s rid conv msg mid res hnone hrun
  exact processAsync_conversations_head execSkill model rounds s rid conv msg
    mid res hnone hrun

/-- Witness for C5: the general first-entry statement instantiated on the
two-round scripted run. -/
theorem transcript_structure_and_order_witness :
    ∃ rest, lookupKey twoRoundRes.state.inMemoryConversations "c1" =
      some (systemMessage :: rest) :=
  transcript_structure_and_order.1 execOkStub twoRoundModel 10 st1 "r1" "c1"
    "What is 2+2?" "m1" twoRoundRes (by decide) (by rfl)

end ChatApp
